import Mathlib

/-!
Shallow embedding of the live-window messaging core of the MessagingApp
repository: the message feed hook (`useMessages`) and the collection hook
(`useLists`).  Firestore documents are modelled as Lean structures, a
collection as a list of documents, a point read (`getDoc`) as a first-match
lookup by id, and each exposed operation as a pure state transition that also
reports how many store reads and writes it issued and whether it raised a
typed failure to its caller.  JavaScript-object semantics that the code relies
on (truthiness of `likes[userId]`, `emoji || ''`, `replyTo || null`,
`[...new Set(ids)]` deduplication) are modelled explicitly.
-/

/-- Visibility of a list: `'public' | 'private'`. -/
inductive Visibility where
  | pub
  | priv
deriving DecidableEq

/-- Kind of a list: `'collection' | 'checklist'`. -/
inductive ListType where
  | collection
  | checklist
deriving DecidableEq

/-- A `Message` document (src/unnamed/part_001): senderId, content XOR
imageUrl, store timestamp, optional replyTo, and `likes : Record<string,
boolean>` modelled as an association list of string keys to booleans. -/
structure Message where
  id : String
  senderId : String
  content : Option String
  imageUrl : Option String
  timestamp : Nat
  replyTo : Option String
  likes : List (String × Bool)
deriving DecidableEq

/-- `MessageWithReply`: a message plus its optionally resolved reply target. -/
structure MessageWithReply where
  msg : Message
  replyToMessage : Option Message
deriving DecidableEq

/-- A `List` document (named `ListDoc` because `List` is taken in Lean). -/
structure ListDoc where
  id : String
  name : String
  ownerId : String
  visibility : Visibility
  type : ListType
  emoji : String
  createdAt : Nat
deriving DecidableEq

/-- A `ListItem` membership document. -/
structure ListItem where
  id : String
  listId : String
  messageId : String
  addedAt : Nat
  completed : Bool
deriving DecidableEq

/-- `ListItemWithMessage`: a list item plus its resolved message (or null). -/
structure ListItemWithMessage where
  item : ListItem
  message : Option Message
deriving DecidableEq

/-! ### JavaScript object / value helpers -/

/-- Lookup in a JS object modelled as an association list: the first entry
with the given key, as `Map.get` / property access returns. -/
def lookupAssoc {α : Type} (l : List (String × α)) (k : String) : Option α :=
  (l.find? (fun p => p.1 = k)).map (fun p => p.2)

/-- JS truthiness of `obj[k]` for a boolean-valued object: `undefined` and
`false` are falsy, `true` is truthy. -/
def objTruthy (l : List (String × Bool)) (k : String) : Bool :=
  match lookupAssoc l k with
  | some b => b
  | none => false

/-- `delete obj[k]`. -/
def objDelete (l : List (String × Bool)) (k : String) : List (String × Bool) :=
  l.filter (fun p => ¬ p.1 = k)

/-- `obj[k] = true`: replace the entry if the key is present, else append. -/
def objSetTrue (l : List (String × Bool)) (k : String) : List (String × Bool) :=
  if l.any (fun p => p.1 = k) then
    l.map (fun p => if p.1 = k then (k, true) else p)
  else
    l ++ [(k, true)]

/-- `s || null` on an optional string: the empty string is falsy in JS, so
both `undefined` and `''` collapse to `null`. -/
def jsStr (o : Option String) : Option String :=
  o.bind (fun s => if s = "" then none else some s)

/-- `[...new Set(l)]`: deduplication keeping the first occurrence of each
element. -/
def uniqueFirst : List String → List String
  | [] => []
  | x :: xs => x :: (uniqueFirst xs).filter (fun y => ¬ y = x)

/-! ### Remote document store -/

/-- Point read by id in the messages collection (`getDoc`): the document with
the given id, or `none` when no such document exists. -/
def getMessageDoc (store : List Message) (i : String) : Option Message :=
  store.find? (fun m => m.id = i)

/-- Page size `MESSAGES_PER_PAGE` of the feed. -/
def MESSAGES_PER_PAGE : Nat := 50

/-! ### `fetchReplyMessages` (src/unnamed/part_000 lines 36-61)

Collect the truthy `replyTo` ids of the batch, deduplicate them, point-read
each distinct id, build an id-keyed map of the documents that exist, and
project every message of the batch against that map.  The second component
counts the point reads issued. -/

def fetchReplyMessages (store : List Message) (msgs : List Message) :
    List MessageWithReply × Nat :=
  let replyIds := msgs.filterMap (fun m => jsStr m.replyTo)
  if replyIds.isEmpty then
    (msgs.map (fun m => ⟨m, none⟩), 0)
  else
    let uniqueReplyIds := uniqueFirst replyIds
    let replyMap : List (String × Message) :=
      uniqueReplyIds.filterMap (fun i => (getMessageDoc store i).map (fun d => (i, d)))
    (msgs.map (fun m =>
      ⟨m, match jsStr m.replyTo with
          | some r => lookupAssoc replyMap r
          | none => none⟩),
     uniqueReplyIds.length)

/-! ### Message feed engine state (`useMessages`) -/

/-- The in-memory state of the feed hook: the visible window (oldest first),
the loading flags, `hasMore`, the feed-level error, the pagination cursor
(`lastDocRef`) and the first-load timestamp (`initialLoadRef`). -/
structure FeedState where
  messages : List MessageWithReply
  loading : Bool
  loadingMore : Bool
  hasMore : Bool
  error : Option String
  cursor : Option Message
  initialLoad : Option Nat
deriving DecidableEq

/-- The success path of the `onSnapshot` handler (src/unnamed/part_000 lines
83-108) applied to one delivered batch, which arrives in query order (newest
first): record the first-load timestamp, set the cursor to the last iterated
document, recompute `hasMore` as `batch size == MESSAGES_PER_PAGE`, resolve
replies, and replace the window with the resolved batch reversed.  The second
component counts the point reads issued. -/
def processSnapshot (store : List Message) (st : FeedState)
    (batch : List Message) : FeedState × Nat :=
  let st1 :=
    match batch, st.initialLoad with
    | m :: _, none => { st with initialLoad := some m.timestamp }
    | _, _ => st
  ({ st1 with
      cursor := batch.getLast?
      hasMore := batch.length = MESSAGES_PER_PAGE
      messages := (fetchReplyMessages store batch).1.reverse
      loading := false },
   (fetchReplyMessages store batch).2)

/-- `loadMore` (src/unnamed/part_000 lines 121-159).  The one-shot older-page
query is abstracted as `fetchOlder`, mapping the cursor document to the result
of `orderBy desc, startAfter cursor, limit N` (newest first).  Returns the new
state together with the number of store reads issued. -/
def loadMore (userId : Option String) (store : List Message)
    (fetchOlder : Message → List Message) (st : FeedState) :
    FeedState × Nat :=
  if userId.isNone || st.loadingMore || !st.hasMore || st.cursor.isNone then
    (st, 0)
  else
    match st.cursor with
    | none => (st, 0)
    | some c =>
      let older := fetchOlder c
      let st1 := { st with loadingMore := true }
      let st2 :=
        match older.getLast? with
        | some d => { st1 with cursor := some d }
        | none => st1
      let st3 := { st2 with hasMore := older.length = MESSAGES_PER_PAGE }
      if older.isEmpty then
        ({ st3 with loadingMore := false }, 1)
      else
        ({ st3 with
            messages := (fetchReplyMessages store older).1.reverse ++ st3.messages
            loadingMore := false },
         1 + (fetchReplyMessages store older).2)

/-- Repeated calls of `loadMore`, accumulating the reads issued. -/
def loadMoreIter (userId : Option String) (store : List Message)
    (fetchOlder : Message → List Message) : Nat → FeedState → FeedState × Nat
  | 0, st => (st, 0)
  | n + 1, st =>
    ((loadMoreIter userId store fetchOlder n
        (loadMore userId store fetchOlder st).1).1,
     (loadMore userId store fetchOlder st).2 +
       (loadMoreIter userId store fetchOlder n
         (loadMore userId store fetchOlder st).1).2)

/-- Outcome of a send operation: the messages collection afterwards, the
store reads and writes issued, and whether a typed failure was raised. -/
structure SendOutcome where
  store : List Message
  reads : Nat
  writes : Nat
  raised : Bool
deriving DecidableEq

/-- `sendMessage` (src/unnamed/part_000 lines 162-183): no-op unless a user
is present and the trimmed content is non-empty; otherwise insert a message
with trimmed content, no image, `replyTo || null` and an empty like set.
`insertOk` models whether the `addDoc` write succeeds; on failure the typed
send failure is re-thrown. -/
def sendMessage (userId : Option String) (insertOk : Bool) (freshId : String)
    (now : Nat) (store : List Message) (content : String)
    (replyTo : Option String) : SendOutcome :=
  match userId with
  | none => ⟨store, 0, 0, false⟩
  | some u =>
    if content.trim = "" then ⟨store, 0, 0, false⟩
    else if insertOk then
      ⟨store ++ [⟨freshId, u, some content.trim, none, now, jsStr replyTo, []⟩],
       0, 1, false⟩
    else ⟨store, 0, 1, true⟩

/-- `sendDrawing` (src/unnamed/part_000 lines 186-218): no-op without a user;
upload the binary first (`uploadOk`; object storage, not the document store),
then insert a message carrying the returned url.  Failures re-throw. -/
def sendDrawing (userId : Option String) (uploadOk : Bool) (insertOk : Bool)
    (freshId : String) (url : String) (now : Nat) (store : List Message)
    (replyTo : Option String) : SendOutcome :=
  match userId with
  | none => ⟨store, 0, 0, false⟩
  | some u =>
    if !uploadOk then ⟨store, 0, 0, true⟩
    else if insertOk then
      ⟨store ++ [⟨freshId, u, none, some url, now, jsStr replyTo, []⟩],
       0, 1, false⟩
    else ⟨store, 0, 1, true⟩

/-- The new like set computed by `toggleLike` (src/unnamed/part_000 lines
231-238): copy the current set and flip the acting identity's membership by
JS truthiness — delete the key when truthy, set it to `true` otherwise. -/
def newLikesOf (likes : List (String × Bool)) (u : String) :
    List (String × Bool) :=
  if objTruthy likes u then objDelete likes u else objSetTrue likes u

/-- Outcome of `toggleLike`: messages collection, visible window, effect
counts, and whether a failure was raised to the caller. -/
structure LikeOutcome where
  store : List Message
  window : List MessageWithReply
  reads : Nat
  writes : Nat
  raised : Bool
deriving DecidableEq

/-- `toggleLike` (src/unnamed/part_000 lines 221-251): no-op without a user;
point-read the message and return silently when it does not exist; otherwise
write back the flipped like set (`writeOk` models the `updateDoc` outcome) and
only on success patch the local window.  The catch block logs and swallows the
error, so `raised` is false on every path. -/
def toggleLike (userId : Option String) (writeOk : Bool)
    (store : List Message) (window : List MessageWithReply)
    (messageId : String) : LikeOutcome :=
  match userId with
  | none => ⟨store, window, 0, 0, false⟩
  | some u =>
    match getMessageDoc store messageId with
    | none => ⟨store, window, 1, 0, false⟩
    | some m =>
      let newLikes := newLikesOf m.likes u
      if writeOk then
        ⟨store.map (fun d => if d.id = messageId then { d with likes := newLikes } else d),
         window.map (fun w =>
           if w.msg.id = messageId then { w with msg := { w.msg with likes := newLikes } } else w),
         1, 1, false⟩
      else ⟨store, window, 1, 1, false⟩

/-! ### Reference resolution under fallible point reads (C2)

`Promise.all` over point reads rejects as soon as any read rejects; a read
that resolves for a missing document is not a rejection.  `ReadResult`
distinguishes the three outcomes of one `getDoc`. -/

/-- Outcome of a single fallible point read. -/
inductive ReadResult where
  | err
  | missing
  | found (d : Message)
deriving DecidableEq

/-- Whether the read rejected. -/
def ReadResult.isErr : ReadResult → Bool
  | .err => true
  | _ => false

/-- The document carried by a successful read, `none` for a missing one. -/
def ReadResult.toOption : ReadResult → Option Message
  | .found d => some d
  | _ => none

/-- `fetchReplyMessages` with each point read served by the oracle `read`.
The `Promise.all` of the deduplicated reads rejects when any of them rejects,
and then the whole resolution throws; otherwise the found documents form the
id-keyed map and every message is projected against it. -/
def fetchReplyMessagesE (read : String → ReadResult) (msgs : List Message) :
    Except Unit (List MessageWithReply) :=
  let replyIds := msgs.filterMap (fun m => jsStr m.replyTo)
  if replyIds.isEmpty then
    .ok (msgs.map (fun m => ⟨m, none⟩))
  else
    let uniqueReplyIds := uniqueFirst replyIds
    if uniqueReplyIds.any (fun i => (read i).isErr) then
      .error ()
    else
      let replyMap : List (String × Message) :=
        uniqueReplyIds.filterMap (fun i => (read i).toOption.map (fun d => (i, d)))
      .ok (msgs.map (fun m =>
        ⟨m, match jsStr m.replyTo with
            | some r => lookupAssoc replyMap r
            | none => none⟩))

/-- `getListItems` reference resolution (src/src/hooks/useLists.ts lines
242-261) with fallible point reads: one read per item (the code builds
`messageIds` without deduplicating), `Promise.all` rejecting when any read
rejects, and the whole call then throwing its typed failure. -/
def getListItemsE (read : String → ReadResult) (items : List ListItem) :
    Except Unit (List ListItemWithMessage) :=
  let messageIds := items.map (fun it => it.messageId)
  if messageIds.any (fun i => (read i).isErr) then
    .error ()
  else
    let messageMap : List (String × Message) :=
      messageIds.filterMap (fun i => (read i).toOption.map (fun d => (i, d)))
    .ok (items.map (fun it => ⟨it, lookupAssoc messageMap it.messageId⟩))

/-! ### Collection engine (`useLists`) -/

/-- Outcome of `createList`: the lists collection, the returned id (null when
no user is present), effect counts, and whether a typed failure was raised. -/
structure CreateListOutcome where
  lists : List ListDoc
  ret : Option String
  reads : Nat
  writes : Nat
  raised : Bool
deriving DecidableEq

/-- `createList` (src/src/hooks/useLists.ts lines 70-97): returns null
without a user; otherwise inserts a list with the given fields, `emoji || ''`
and the store timestamp, and returns the new id.  A failed insert re-throws
the typed failure. -/
def createList (userId : Option String) (insertOk : Bool) (freshId : String)
    (now : Nat) (lists : List ListDoc) (name : String) (vis : Visibility)
    (ty : ListType) (emoji : Option String) : CreateListOutcome :=
  match userId with
  | none => ⟨lists, none, 0, 0, false⟩
  | some u =>
    if insertOk then
      ⟨lists ++ [⟨freshId, name, u, vis, ty, (jsStr emoji).getD "", now⟩],
       some freshId, 0, 1, false⟩
    else ⟨lists, none, 0, 1, true⟩

/-- The partial field patch accepted by `updateList`. -/
structure ListUpdates where
  name : Option String
  visibility : Option Visibility
  type : Option ListType
  emoji : Option String
deriving DecidableEq

/-- `updateDoc` merge semantics: omitted fields are untouched. -/
def applyListUpdates (l : ListDoc) (u : ListUpdates) : ListDoc :=
  { l with
      name := u.name.getD l.name
      visibility := u.visibility.getD l.visibility
      type := u.type.getD l.type
      emoji := u.emoji.getD l.emoji }

/-- Outcome of an operation on the lists collection. -/
structure ListsOutcome where
  lists : List ListDoc
  reads : Nat
  writes : Nat
  raised : Bool
deriving DecidableEq

/-- `updateList` (src/src/hooks/useLists.ts lines 100-116): no-op without a
user; otherwise patch the addressed list, re-throwing on a failed write. -/
def updateList (userId : Option String) (writeOk : Bool)
    (lists : List ListDoc) (listId : String) (upd : ListUpdates) :
    ListsOutcome :=
  match userId with
  | none => ⟨lists, 0, 0, false⟩
  | some _ =>
    if writeOk then
      ⟨lists.map (fun l => if l.id = listId then applyListUpdates l upd else l),
       0, 1, false⟩
    else ⟨lists, 0, 1, true⟩

/-- Outcome of `deleteList`: both collections it touches, effect counts, and
whether the typed failure was raised. -/
structure DeleteListOutcome where
  lists : List ListDoc
  items : List ListItem
  reads : Nat
  writes : Nat
  raised : Bool
deriving DecidableEq

/-- `deleteList` (src/src/hooks/useLists.ts lines 119-143): no-op without a
user; otherwise query the items of the list, delete them all in parallel
(`delItemOk` gives each delete's outcome; the ones that succeed take effect
even when the batch fails), and only when every item delete succeeded delete
the list itself (`delListOk`).  Any failure re-throws the typed failure. -/
def deleteList (userId : Option String) (delItemOk : String → Bool)
    (delListOk : Bool) (lists : List ListDoc) (items : List ListItem)
    (listId : String) : DeleteListOutcome :=
  match userId with
  | none => ⟨lists, items, 0, 0, false⟩
  | some _ =>
    let matching := items.filter (fun it => it.listId = listId)
    let items2 := items.filter (fun it => ¬ (it.listId = listId ∧ delItemOk it.id))
    if matching.all (fun it => delItemOk it.id) then
      if delListOk then
        ⟨lists.filter (fun l => ¬ l.id = listId), items2,
         1, matching.length + 1, false⟩
      else ⟨lists, items2, 1, matching.length + 1, true⟩
    else ⟨lists, items2, 1, matching.length, true⟩

/-- Outcome of an operation on the listItems collection. -/
structure ItemsOutcome where
  items : List ListItem
  reads : Nat
  writes : Nat
  raised : Bool
deriving DecidableEq

/-- `addMessageToList` (src/src/hooks/useLists.ts lines 146-177): no-op
without a user; query for an existing item with the same (listId, messageId)
and return when one exists; otherwise insert a new item with
`completed = false`.  A failed insert re-throws. -/
def addMessageToList (userId : Option String) (insertOk : Bool)
    (freshId : String) (now : Nat) (items : List ListItem)
    (listId : String) (messageId : String) : ItemsOutcome :=
  match userId with
  | none => ⟨items, 0, 0, false⟩
  | some _ =>
    let existing := items.filter (fun it => it.listId = listId ∧ it.messageId = messageId)
    if !existing.isEmpty then ⟨items, 1, 0, false⟩
    else if insertOk then
      ⟨items ++ [⟨freshId, listId, messageId, now, false⟩], 1, 1, false⟩
    else ⟨items, 1, 1, true⟩

/-- `removeFromList` (src/src/hooks/useLists.ts lines 180-202): no-op without
a user; otherwise query all items matching (listId, messageId) and delete
every match in parallel, re-throwing when any delete fails. -/
def removeFromList (userId : Option String) (delOk : String → Bool)
    (items : List ListItem) (listId : String) (messageId : String) :
    ItemsOutcome :=
  match userId with
  | none => ⟨items, 0, 0, false⟩
  | some _ =>
    let matching := items.filter (fun it => it.listId = listId ∧ it.messageId = messageId)
    let items2 := items.filter
      (fun it => ¬ (it.listId = listId ∧ it.messageId = messageId ∧ delOk it.id))
    if matching.all (fun it => delOk it.id) then
      ⟨items2, 1, matching.length, false⟩
    else ⟨items2, 1, matching.length, true⟩

/-- `toggleItemCompleted` (src/src/hooks/useLists.ts lines 205-223): no-op
without a user; point-read the item and do nothing when it does not exist;
otherwise write back the negated `completed` flag, re-throwing on a failed
write. -/
def toggleItemCompleted (userId : Option String) (writeOk : Bool)
    (items : List ListItem) (itemId : String) : ItemsOutcome :=
  match userId with
  | none => ⟨items, 0, 0, false⟩
  | some _ =>
    match items.find? (fun it => it.id = itemId) with
    | none => ⟨items, 1, 0, false⟩
    | some it =>
      if writeOk then
        ⟨items.map (fun j => if j.id = itemId then { j with completed := !it.completed } else j),
         1, 1, false⟩
      else ⟨items, 1, 1, true⟩

/-- Result of `getListItems`: the projected items and the reads issued. -/
structure GetItemsOutcome where
  ret : List ListItemWithMessage
  reads : Nat
deriving DecidableEq

/-- `getListItems` (src/src/hooks/useLists.ts lines 226-268), deterministic
reads: the hook closes over `userId` but never consults it, so the range
query for the list's items (ordered by `addedAt` descending) and the per-item
message point reads are issued for any caller. -/
def getListItems (userId : Option String) (items : List ListItem)
    (msgStore : List Message) (listId : String) : GetItemsOutcome :=
  let matching :=
    (items.filter (fun it => it.listId = listId)).insertionSort
      (fun a b => b.addedAt ≤ a.addedAt)
  let messageIds := matching.map (fun it => it.messageId)
  let messageMap : List (String × Message) :=
    messageIds.filterMap (fun i => (getMessageDoc msgStore i).map (fun d => (i, d)))
  ⟨matching.map (fun it => ⟨it, lookupAssoc messageMap it.messageId⟩),
   1 + messageIds.length⟩

/-! ### Sample documents and states used by concrete witnesses -/

/-- Number of ListItems of the store matching a (listId, messageId) pair. -/
def pairCount (items : List ListItem) (l m : String) : Nat :=
  (items.filter (fun it => it.listId = l ∧ it.messageId = m)).length

def msgHi : Message := ⟨"m1", "A", some "hi", none, 1, none, []⟩

def msgHello : Message := ⟨"m2", "B", some "hello", none, 2, some "m1", []⟩

def msgLiked : Message := ⟨"m3", "B", some "yo", none, 3, none, [("B", true)]⟩

def msgReplyA : Message := ⟨"x1", "A", some "p", none, 4, some "a", []⟩

def msgReplyB : Message := ⟨"x2", "B", some "q", none, 5, some "b", []⟩

def feedInit : FeedState := ⟨[], true, false, true, none, none, none⟩

def feedNoMore : FeedState := ⟨[], false, false, false, none, some msgHi, none⟩

def listGroceries : ListDoc :=
  ⟨"l1", "Groceries", "A", Visibility.priv, ListType.checklist, "", 0⟩

def itemA : ListItem := ⟨"i1", "l1", "m2", 0, false⟩

/-- Reads where id `"a"` resolves and every other id rejects. -/
def readPartial : String → ReadResult :=
  fun i => if i = "a" then .found msgHi else .err

/-- Reads where id `"a"` resolves and every other id is a missing document. -/
def readMissing : String → ReadResult :=
  fun i => if i = "a" then .found msgHi else .missing

/-! ### Helper lemmas -/

theorem mem_uniqueFirst {a : String} : ∀ {l : List String},
    a ∈ uniqueFirst l ↔ a ∈ l := by
  intro l
  induction l with
  | nil => simp [uniqueFirst]
  | cons x xs ih =>
    by_cases hax : a = x
    · simp [uniqueFirst, hax]
    · simp [uniqueFirst, hax, List.mem_filter, ih]

theorem nodup_uniqueFirst : ∀ (l : List String), (uniqueFirst l).Nodup := by
  intro l
  induction l with
  | nil => simp [uniqueFirst]
  | cons x xs ih =>
    refine List.nodup_cons.mpr ⟨?_, ih.filter _⟩
    intro hx
    have := (List.mem_filter.mp hx).2
    simp at this

theorem lookupAssoc_cons {α : Type} (k : String) (v : α)
    (t : List (String × α)) (r : String) :
    lookupAssoc ((k, v) :: t) r = if k = r then some v else lookupAssoc t r := by
  by_cases h : k = r <;> simp [lookupAssoc, List.find?_cons, h]

theorem lookupAssoc_filterMap {α : Type} (g : String → Option α) (r : String) :
    ∀ (ids : List String),
    lookupAssoc (ids.filterMap (fun i => (g i).map (fun d => (i, d)))) r =
      if r ∈ ids then g r else none := by
  intro ids
  induction ids with
  | nil => simp [lookupAssoc]
  | cons i ids ih =>
    by_cases hri : r = i
    · subst hri
      cases hg : g r with
      | none =>
        rw [List.filterMap_cons, hg]
        simp only [Option.map_none']
        rw [ih]
        by_cases h : r ∈ ids <;> simp [h, hg]
      | some d =>
        rw [List.filterMap_cons, hg]
        simp [lookupAssoc_cons]
    · cases hg : g i with
      | none =>
        rw [List.filterMap_cons, hg]
        simp only [Option.map_none']
        rw [ih]
        simp [hri]
      | some d =>
        rw [List.filterMap_cons, hg]
        simp only [Option.map_some']
        rw [lookupAssoc_cons, ih]
        have : ¬ i = r := fun h => hri h.symm
        simp [this, hri]

theorem fetchReplyMessages_resolves (store : List Message)
    (msgs : List Message) :
    (fetchReplyMessages store msgs).1 =
      msgs.map (fun m => ⟨m, (jsStr m.replyTo).bind (getMessageDoc store)⟩) := by
  unfold fetchReplyMessages
  by_cases h : (msgs.filterMap (fun m => jsStr m.replyTo)).isEmpty
  · simp only [h, if_true]
    refine List.map_congr_left (fun m hm => ?_)
    have hnil : msgs.filterMap (fun m => jsStr m.replyTo) = [] :=
      List.isEmpty_iff.mp h
    have : jsStr m.replyTo = none :=
      List.filterMap_eq_nil_iff.mp hnil m hm
    simp [this]
  · simp only [h, if_false]
    refine List.map_congr_left (fun m hm => ?_)
    cases hr : jsStr m.replyTo with
    | none => simp
    | some r =>
      have hmem : r ∈ uniqueFirst (msgs.filterMap (fun m => jsStr m.replyTo)) :=
        mem_uniqueFirst.mpr (List.mem_filterMap.mpr ⟨m, hm, hr⟩)
      simp only [lookupAssoc_filterMap, hmem, if_true, Option.bind]

theorem getLast?_oldest :
    ∀ (batch : List Message),
    batch.Pairwise (fun a b => b.timestamp ≤ a.timestamp) →
    ∀ l, batch.getLast? = some l →
    l ∈ batch ∧ ∀ m ∈ batch, l.timestamp ≤ m.timestamp
  | [], _, l, hl => by simp at hl
  | [a], _, l, hl => by
    simp at hl
    subst hl
    simp
  | a :: b :: t, hp, l, hl => by
    rw [List.getLast?_cons_cons] at hl
    have hp2 := List.pairwise_cons.mp hp
    obtain ⟨hmem, hmin⟩ := getLast?_oldest (b :: t) hp2.2 l hl
    refine ⟨List.mem_cons_of_mem a hmem, fun m hm => ?_⟩
    rcases List.mem_cons.mp hm with hma | hmt
    · subst hma
      exact hp2.1 l hmem
    · exact hmin m hmt

theorem lookupAssoc_cons_pair {α : Type} (p : String × α)
    (t : List (String × α)) (r : String) :
    lookupAssoc (p :: t) r = if p.1 = r then some p.2 else lookupAssoc t r := by
  by_cases h : p.1 = r <;> simp [lookupAssoc, List.find?_cons, h]

theorem lookupAssoc_of_no_key {α : Type} (u : String) :
    ∀ (l : List (String × α)), l.any (fun p => p.1 = u) = false →
    lookupAssoc l u = none := by
  intro l
  induction l with
  | nil => intro _; rfl
  | cons p t ih =>
    intro h
    rw [List.any_cons] at h
    have hp := (Bool.or_eq_false_iff.mp h).1
    have ht := (Bool.or_eq_false_iff.mp h).2
    rw [lookupAssoc_cons_pair]
    simp only [show ¬ p.1 = u by simpa using hp, if_false]
    exact ih ht

theorem lookupAssoc_filter_ne {α : Type} (u v : String) (hvu : ¬ v = u) :
    ∀ (l : List (String × α)),
    lookupAssoc (l.filter (fun p => ¬ p.1 = u)) v = lookupAssoc l v := by
  intro l
  induction l with
  | nil => rfl
  | cons p t ih =>
    by_cases hpu : p.1 = u
    · have hpv : ¬ p.1 = v := fun hpv => hvu ((hpv ▸ hpu : v = u))
      rw [List.filter_cons_of_neg (by simpa using hpu), ih,
        lookupAssoc_cons_pair]
      simp [hpv]
    · rw [List.filter_cons_of_pos (by simpa using hpu),
        lookupAssoc_cons_pair, lookupAssoc_cons_pair, ih]

theorem lookupAssoc_setTrue_self (u : String) :
    ∀ (l : List (String × Bool)), l.any (fun p => p.1 = u) = true →
    lookupAssoc (l.map (fun p => if p.1 = u then (u, true) else p)) u =
      some true := by
  intro l
  induction l with
  | nil => intro h; simp at h
  | cons p t ih =>
    intro h
    by_cases hpu : p.1 = u
    · simp only [List.map_cons, hpu, if_true]
      rw [lookupAssoc_cons_pair]
      simp
    · have ht : t.any (fun p => p.1 = u) = true := by
        rw [List.any_cons] at h
        rcases Bool.or_eq_true_iff.mp h with hp | ht
        · exact absurd (by simpa using hp) hpu
        · exact ht
      simp only [List.map_cons, hpu, if_false]
      rw [lookupAssoc_cons_pair]
      simp only [show ¬ p.1 = u from hpu, if_false]
      exact ih ht

theorem lookupAssoc_setTrue_other (u v : String) (hvu : ¬ v = u) :
    ∀ (l : List (String × Bool)),
    lookupAssoc (l.map (fun p => if p.1 = u then (u, true) else p)) v =
      lookupAssoc l v := by
  intro l
  induction l with
  | nil => rfl
  | cons p t ih =>
    by_cases hpu : p.1 = u
    · have hpv : ¬ p.1 = v := fun hpv => hvu ((hpv ▸ hpu : v = u))
      simp only [List.map_cons, hpu, if_true]
      rw [lookupAssoc_cons_pair, lookupAssoc_cons_pair]
      simp only [show ¬ u = v from fun h => hvu h.symm, hpv, if_false]
      exact ih
    · simp only [List.map_cons, hpu, if_false]
      rw [lookupAssoc_cons_pair, lookupAssoc_cons_pair, ih]

theorem lookupAssoc_append_pair {α : Type} (u v : String) (b : α) :
    ∀ (l : List (String × α)),
    lookupAssoc (l ++ [(u, b)]) v =
      match lookupAssoc l v with
      | some x => some x
      | none => if u = v then some b else none := by
  intro l
  induction l with
  | nil => simp [lookupAssoc_cons_pair, lookupAssoc]
  | cons p t ih =>
    rw [List.cons_append, lookupAssoc_cons_pair, lookupAssoc_cons_pair, ih]
    by_cases hpv : p.1 = v <;> simp [hpv]

theorem objDelete_no_key (l : List (String × Bool)) (u : String) :
    (objDelete l u).any (fun p => p.1 = u) = false := by
  rw [Bool.eq_false_iff]
  intro h
  rcases List.any_eq_true.mp h with ⟨p, hp, hpu⟩
  have h2 := (List.mem_filter.mp hp).2
  simp at h2 hpu
  exact h2 hpu

theorem objTruthy_newLikesOf_self (l : List (String × Bool)) (u : String) :
    objTruthy (newLikesOf l u) u = !objTruthy l u := by
  unfold newLikesOf
  by_cases h : objTruthy l u = true
  · rw [if_pos h, h, Bool.not_true]
    unfold objTruthy
    rw [lookupAssoc_of_no_key u (objDelete l u) (objDelete_no_key l u)]
  · have h' : objTruthy l u = false := by
      cases hb : objTruthy l u
      · rfl
      · exact absurd hb h
    rw [if_neg h, h', Bool.not_false]
    unfold objSetTrue
    by_cases hany : (l.any fun p => p.1 = u) = true
    · rw [if_pos hany]
      unfold objTruthy
      rw [lookupAssoc_setTrue_self u l hany]
    · rw [if_neg hany]
      unfold objTruthy
      rw [lookupAssoc_append_pair]
      rw [lookupAssoc_of_no_key u l (Bool.eq_false_iff.mpr hany)]
      simp

theorem objTruthy_newLikesOf_other (l : List (String × Bool)) (u v : String)
    (hvu : ¬ v = u) : objTruthy (newLikesOf l u) v = objTruthy l v := by
  unfold newLikesOf
  by_cases h : objTruthy l u = true
  · rw [if_pos h]
    unfold objTruthy objDelete
    rw [lookupAssoc_filter_ne u v hvu]
  · rw [if_neg h]
    unfold objSetTrue
    by_cases hany : (l.any fun p => p.1 = u) = true
    · rw [if_pos hany]
      unfold objTruthy
      rw [lookupAssoc_setTrue_other u v hvu]
    · rw [if_neg hany]
      unfold objTruthy
      rw [lookupAssoc_append_pair]
      cases hl : lookupAssoc l v with
      | some x => simp
      | none => simp [show ¬ u = v from fun h2 => hvu h2.symm]

theorem objTruthy_newLikesOf_twice (l : List (String × Bool)) (u v : String) :
    objTruthy (newLikesOf (newLikesOf l u) u) v = objTruthy l v := by
  by_cases hvu : v = u
  · subst hvu
    rw [objTruthy_newLikesOf_self, objTruthy_newLikesOf_self, Bool.not_not]
  · rw [objTruthy_newLikesOf_other _ _ _ hvu, objTruthy_newLikesOf_other _ _ _ hvu]

theorem getMessageDoc_map_setLikes (mid : String) (nl : List (String × Bool))
    (i : String) : ∀ (store : List Message),
    getMessageDoc
      (store.map (fun d => if d.id = mid then { d with likes := nl } else d)) i =
    (getMessageDoc store i).map
      (fun d => if d.id = mid then { d with likes := nl } else d) := by
  intro store
  induction store with
  | nil => rfl
  | cons d t ih =>
    have hid : (if d.id = mid then { d with likes := nl } else d).id = d.id := by
      by_cases h : d.id = mid <;> simp [h]
    by_cases hdi : d.id = i
    · unfold getMessageDoc
      rw [List.map_cons,
        List.find?_cons_of_pos _ (by rw [decide_eq_true_eq, hid]; exact hdi),
        List.find?_cons_of_pos _ (by rw [decide_eq_true_eq]; exact hdi)]
      rfl
    · unfold getMessageDoc
      rw [List.map_cons,
        List.find?_cons_of_neg _ (by rw [decide_eq_true_eq, hid]; exact hdi),
        List.find?_cons_of_neg _ (by rw [decide_eq_true_eq]; exact hdi)]
      exact ih

theorem fetchReplyMessages_reads (store : List Message) (msgs : List Message) :
    (fetchReplyMessages store msgs).2 =
      (uniqueFirst (msgs.filterMap (fun m => jsStr m.replyTo))).length := by
  unfold fetchReplyMessages
  by_cases h : (msgs.filterMap (fun m => jsStr m.replyTo)).isEmpty
  · rw [if_pos h]
    rw [List.isEmpty_iff.mp h]
    rfl
  · rw [if_neg h]

/-! ### Claim theorems -/

/-- C1: every live-subscription delivery of a batch (ordered newest-first)
makes the snapshot handler set the pagination cursor to the oldest item of
the batch, set `hasMore` iff the batch size equals `MESSAGES_PER_PAGE`,
resolve each item's `replyTo` through deduplicated point-reads (a null or
unresolved reference yields `replyToMessage = null`), and replace the entire
visible window with the batch reversed into oldest-first order, regardless of
the previous window contents. -/
theorem snapshot_full_replace (store : List Message) (st : FeedState)
    (batch : List Message)
    (hsorted : batch.Pairwise (fun a b => b.timestamp ≤ a.timestamp))
    (hne : batch ≠ []) :
    (∃ l, (processSnapshot store st batch).1.cursor = some l ∧ l ∈ batch ∧
        ∀ m ∈ batch, l.timestamp ≤ m.timestamp) ∧
    ((processSnapshot store st batch).1.hasMore = true ↔
        batch.length = MESSAGES_PER_PAGE) ∧
    (processSnapshot store st batch).1.messages =
      (batch.map (fun m =>
        ⟨m, (jsStr m.replyTo).bind (getMessageDoc store)⟩)).reverse ∧
    (processSnapshot store st batch).2 =
      (uniqueFirst (batch.filterMap (fun m => jsStr m.replyTo))).length ∧
    (uniqueFirst (batch.filterMap (fun m => jsStr m.replyTo))).Nodup := by
  have hcursor : (processSnapshot store st batch).1.cursor = batch.getLast? := rfl
  refine ⟨?_, ?_, ?_, ?_, nodup_uniqueFirst _⟩
  · have hlast := List.getLast?_eq_getLast_of_ne_nil hne
    obtain ⟨hmem, hmin⟩ := getLast?_oldest batch hsorted _ hlast
    exact ⟨batch.getLast hne, hcursor.trans hlast, hmem, hmin⟩
  · constructor
    · intro h
      exact of_decide_eq_true h
    · intro h
      exact decide_eq_true h
  · show (fetchReplyMessages store batch).1.reverse = _
    rw [fetchReplyMessages_resolves]
  · exact fetchReplyMessages_reads store batch

/-- Witness for C1: a concrete two-message delivery, newest first, where the
newer message replies to the older one. -/
theorem snapshot_full_replace_witness :
    (∃ l, (processSnapshot [msgHi, msgHello] feedInit [msgHello, msgHi]).1.cursor
          = some l ∧ l ∈ [msgHello, msgHi] ∧
        ∀ m ∈ [msgHello, msgHi], l.timestamp ≤ m.timestamp) ∧
    ((processSnapshot [msgHi, msgHello] feedInit [msgHello, msgHi]).1.hasMore
        = true ↔ [msgHello, msgHi].length = MESSAGES_PER_PAGE) ∧
    (processSnapshot [msgHi, msgHello] feedInit [msgHello, msgHi]).1.messages =
      ([msgHello, msgHi].map (fun m =>
        ⟨m, (jsStr m.replyTo).bind (getMessageDoc [msgHi, msgHello])⟩)).reverse ∧
    (processSnapshot [msgHi, msgHello] feedInit [msgHello, msgHi]).2 =
      (uniqueFirst ([msgHello, msgHi].filterMap (fun m => jsStr m.replyTo))).length ∧
    (uniqueFirst ([msgHello, msgHi].filterMap (fun m => jsStr m.replyTo))).Nodup :=
  by
  have h1 : List.Pairwise (fun a b : Message => b.timestamp ≤ a.timestamp)
      [msgHello, msgHi] := by decide
  have h2 : ([msgHello, msgHi] : List Message) ≠ [] := by decide
  exact snapshot_full_replace [msgHi, msgHello] feedInit [msgHello, msgHi] h1 h2

/-- C3: `loadMore` is a no-op whenever `hasMore` is false, or a page load is
already in flight, or no pagination cursor exists: any number of repeated
calls leaves the whole engine state (window, cursor, `hasMore`, error)
unchanged and issues no store queries. -/
theorem loadMore_noop (userId : Option String) (store : List Message)
    (fetchOlder : Message → List Message) (st : FeedState)
    (h : st.hasMore = false ∨ st.loadingMore = true ∨ st.cursor = none) :
    ∀ (n : Nat), loadMoreIter userId store fetchOlder n st = (st, 0) := by
  have h1 : loadMore userId store fetchOlder st = (st, 0) := by
    rcases h with h | h | h <;> simp [loadMore, h]
  intro n
  induction n with
  | zero => rfl
  | succ k ih =>
    unfold loadMoreIter
    rw [h1]
    simpa using ih

/-- Witness for C3: three repeated `loadMore` calls on a state with
`hasMore = false` change nothing and issue no queries. -/
theorem loadMore_noop_witness :
    loadMoreIter (some "A") [] (fun _ => []) 3 feedNoMore = (feedNoMore, 0) :=
  loadMore_noop (some "A") [] (fun _ => []) feedNoMore (Or.inl rfl) 3

/-- C2 counterexample: with two distinct reply references, the point read of
id `"a"` succeeding and the point read of id `"b"` rejecting, the
`Promise.all` of the deduplicated reads rejects, so the whole batch
resolution returns an error instead of succeeding with only the failed
reference degraded to null — in both `fetchReplyMessages` and
`getListItems`. -/
theorem batch_resolution_partial_failure_cex :
    readPartial "a" = ReadResult.found msgHi ∧
    readPartial "b" = ReadResult.err ∧
    fetchReplyMessagesE readPartial [msgReplyA, msgReplyB] = Except.error () ∧
    getListItemsE readPartial
      [⟨"i1", "l1", "a", 0, false⟩, ⟨"i2", "l1", "b", 1, false⟩] =
      Except.error () := by
  refine ⟨rfl, rfl, rfl, rfl⟩

/-- C2 amended: point reads that resolve with a missing document degrade only
that reference to null while the batch succeeds, but as soon as one point
read fails (rejects) the whole batch resolution aborts with an error — it is
not the case that a failed read degrades to null while the rest of the page
survives. -/
theorem batch_resolution_failfast (read : String → ReadResult)
    (msgs : List Message) (items : List ListItem) :
    (((uniqueFirst (msgs.filterMap (fun m => jsStr m.replyTo))).any
        (fun i => (read i).isErr) = true →
      fetchReplyMessagesE read msgs = Except.error ()) ∧
     ((uniqueFirst (msgs.filterMap (fun m => jsStr m.replyTo))).any
        (fun i => (read i).isErr) = false →
      fetchReplyMessagesE read msgs = Except.ok (msgs.map (fun m =>
        ⟨m, (jsStr m.replyTo).bind (fun r => (read r).toOption)⟩)))) ∧
    (((items.map (fun it => it.messageId)).any
        (fun i => (read i).isErr) = true →
      getListItemsE read items = Except.error ()) ∧
     ((items.map (fun it => it.messageId)).any
        (fun i => (read i).isErr) = false →
      getListItemsE read items = Except.ok (items.map (fun it =>
        ⟨it, (read it.messageId).toOption⟩)))) := by
  refine ⟨⟨?_, ?_⟩, ?_, ?_⟩
  · intro h
    unfold fetchReplyMessagesE
    by_cases he : (msgs.filterMap (fun m => jsStr m.replyTo)).isEmpty
    · rw [List.isEmpty_iff.mp he] at h
      simp [uniqueFirst] at h
    · rw [if_neg he, if_pos h]
  · intro h
    unfold fetchReplyMessagesE
    by_cases he : (msgs.filterMap (fun m => jsStr m.replyTo)).isEmpty
    · rw [if_pos he]
      refine congrArg Except.ok (List.map_congr_left (fun m hm => ?_))
      have hnil : msgs.filterMap (fun m => jsStr m.replyTo) = [] :=
        List.isEmpty_iff.mp he
      have : jsStr m.replyTo = none :=
        List.filterMap_eq_nil_iff.mp hnil m hm
      simp [this]
    · rw [if_neg he, if_neg (by rw [h]; exact Bool.false_ne_true)]
      refine congrArg Except.ok (List.map_congr_left (fun m hm => ?_))
      cases hr : jsStr m.replyTo with
      | none => simp
      | some r =>
        have hmem : r ∈ uniqueFirst (msgs.filterMap (fun m => jsStr m.replyTo)) :=
          mem_uniqueFirst.mpr (List.mem_filterMap.mpr ⟨m, hm, hr⟩)
        simp only [lookupAssoc_filterMap, hmem, if_true, Option.bind]
  · intro h
    unfold getListItemsE
    rw [if_pos h]
  · intro h
    unfold getListItemsE
    rw [if_neg (by rw [h]; exact Bool.false_ne_true)]
    refine congrArg Except.ok (List.map_congr_left (fun it hit => ?_))
    have hmem : it.messageId ∈ items.map (fun it => it.messageId) :=
      List.mem_map_of_mem _ hit
    simp only [lookupAssoc_filterMap, hmem, if_true]

/-- Witness for the C2 amendment: a missing reference degrades to null while
the found one resolves, and one rejected read aborts an item page. -/
theorem batch_resolution_failfast_witness :
    fetchReplyMessagesE readMissing [msgReplyA, msgReplyB] =
      Except.ok [⟨msgReplyA, some msgHi⟩, ⟨msgReplyB, none⟩] ∧
    getListItemsE readPartial [⟨"i3", "l2", "b", 0, false⟩] =
      Except.error () := by
  constructor
  · have h :=
      ((batch_resolution_failfast readMissing [msgReplyA, msgReplyB] []).1).2
        (by decide)
    rw [h]
    rfl
  · exact ((batch_resolution_failfast readPartial []
      [⟨"i3", "l2", "b", 0, false⟩]).2).1 (by decide)

/-- C4: starting from a store with no ListItem for the pair, two sequential
`addMessageToList` calls leave exactly one ListItem for (listId, messageId),
that item has `completed = false`, and the pre-existence check preserves the
at-most-one invariant for any store that already satisfies it. -/
theorem addMessageToList_idempotent (u f1 f2 : String) (t1 t2 : Nat)
    (items : List ListItem) (l m : String)
    (h : pairCount items l m = 0) :
    pairCount (addMessageToList (some u) true f2 t2
      (addMessageToList (some u) true f1 t1 items l m).items l m).items l m = 1 ∧
    (∀ it ∈ (addMessageToList (some u) true f2 t2
        (addMessageToList (some u) true f1 t1 items l m).items l m).items,
      it.listId = l → it.messageId = m → it.completed = false) ∧
    (∀ (js : List ListItem), pairCount js l m ≤ 1 →
      pairCount (addMessageToList (some u) true f1 t1 js l m).items l m ≤ 1) := by
  have hfil : items.filter (fun it => it.listId = l ∧ it.messageId = m) = [] :=
    List.length_eq_zero.mp h
  have hcond1 : ¬ (!(items.filter
      (fun it => it.listId = l ∧ it.messageId = m)).isEmpty) = true := by
    rw [hfil]
    simp
  have hstep1 : (addMessageToList (some u) true f1 t1 items l m).items =
      items ++ [(⟨f1, l, m, t1, false⟩ : ListItem)] := by
    unfold addMessageToList
    rw [if_neg hcond1]
    rfl
  have hfil2 : (items ++ [(⟨f1, l, m, t1, false⟩ : ListItem)]).filter
      (fun it => it.listId = l ∧ it.messageId = m) =
      [(⟨f1, l, m, t1, false⟩ : ListItem)] := by
    rw [List.filter_append, hfil]
    simp
  have hcond2 : (!((items ++ [(⟨f1, l, m, t1, false⟩ : ListItem)]).filter
      (fun it => it.listId = l ∧ it.messageId = m)).isEmpty) = true := by
    rw [hfil2]
    simp
  have hstep2 : (addMessageToList (some u) true f2 t2
      (items ++ [(⟨f1, l, m, t1, false⟩ : ListItem)]) l m).items =
      items ++ [(⟨f1, l, m, t1, false⟩ : ListItem)] := by
    unfold addMessageToList
    rw [if_pos hcond2]
  refine ⟨?_, ?_, ?_⟩
  · rw [hstep1, hstep2]
    unfold pairCount
    rw [hfil2]
    rfl
  · intro it hit hl hm2
    rw [hstep1, hstep2] at hit
    rcases List.mem_append.mp hit with h1 | h2
    · exfalso
      have hmem : it ∈ items.filter (fun it => it.listId = l ∧ it.messageId = m) :=
        List.mem_filter.mpr ⟨h1, by simp [hl, hm2]⟩
      rw [hfil] at hmem
      exact absurd hmem (List.not_mem_nil it)
    · have : it = (⟨f1, l, m, t1, false⟩ : ListItem) := by simpa using h2
      rw [this]
  · intro js hjs
    by_cases hc : js.filter (fun it => it.listId = l ∧ it.messageId = m) = []
    · have hcondj : ¬ (!(js.filter
          (fun it => it.listId = l ∧ it.messageId = m)).isEmpty) = true := by
        rw [hc]
        simp
      have hstep : (addMessageToList (some u) true f1 t1 js l m).items =
          js ++ [(⟨f1, l, m, t1, false⟩ : ListItem)] := by
        unfold addMessageToList
        rw [if_neg hcondj]
        rfl
      rw [hstep]
      unfold pairCount
      rw [List.filter_append, hc]
      simp
    · have hcondj : (!(js.filter
          (fun it => it.listId = l ∧ it.messageId = m)).isEmpty) = true := by
        cases he : (js.filter (fun it => it.listId = l ∧ it.messageId = m)).isEmpty
        · rfl
        · exact absurd (List.isEmpty_iff.mp he) hc
      have hstep : (addMessageToList (some u) true f1 t1 js l m).items = js := by
        unfold addMessageToList
        rw [if_pos hcondj]
      rw [hstep]
      exact hjs

/-- Witness for C4: adding the same (listId, messageId) twice to an empty
item store leaves exactly one item, with `completed = false`. -/
theorem addMessageToList_idempotent_witness :
    pairCount (addMessageToList (some "A") true "i2" 1
      (addMessageToList (some "A") true "i1" 0 [] "l1" "m1").items
      "l1" "m1").items "l1" "m1" = 1 ∧
    (∀ it ∈ (addMessageToList (some "A") true "i2" 1
        (addMessageToList (some "A") true "i1" 0 [] "l1" "m1").items
        "l1" "m1").items,
      it.listId = "l1" → it.messageId = "m1" → it.completed = false) ∧
    (∀ (js : List ListItem), pairCount js "l1" "m1" ≤ 1 →
      pairCount (addMessageToList (some "A") true "i1" 0 js "l1" "m1").items
        "l1" "m1" ≤ 1) :=
  addMessageToList_idempotent "A" "i1" "i2" 0 1 [] "l1" "m1" rfl

/-- C5: `deleteList` deletes every ListItem of the list before the List
document itself: when every item delete succeeds (and the list delete
succeeds) no item of the list and no list with that id remain and no failure
is raised; when any item delete fails, the List document is left untouched
and the typed failure is raised. -/
theorem deleteList_cascade (u listId : String) (delItemOk : String → Bool)
    (delListOk : Bool) (lists : List ListDoc) (items : List ListItem) :
    ((∀ it ∈ items, it.listId = listId → delItemOk it.id = true) →
      delListOk = true →
      (∀ it ∈ (deleteList (some u) delItemOk delListOk lists items listId).items,
        ¬ it.listId = listId) ∧
      (∀ l ∈ (deleteList (some u) delItemOk delListOk lists items listId).lists,
        ¬ l.id = listId) ∧
      (deleteList (some u) delItemOk delListOk lists items listId).raised
        = false) ∧
    ((∃ it ∈ items, it.listId = listId ∧ delItemOk it.id = false) →
      (deleteList (some u) delItemOk delListOk lists items listId).lists
        = lists ∧
      (deleteList (some u) delItemOk delListOk lists items listId).raised
        = true) := by
  constructor
  · intro hall hlok
    subst hlok
    have hmall : ((items.filter (fun it => it.listId = listId)).all
        (fun it => delItemOk it.id)) = true := by
      rw [List.all_eq_true]
      intro it hit
      have hm := List.mem_filter.mp hit
      exact hall it hm.1 (by simpa using hm.2)
    have hres : deleteList (some u) delItemOk true lists items listId =
        ⟨lists.filter (fun l => ¬ l.id = listId),
         items.filter (fun it => ¬ (it.listId = listId ∧ delItemOk it.id)),
         1, (items.filter (fun it => it.listId = listId)).length + 1, false⟩ := by
      unfold deleteList
      rw [if_pos hmall]
      rfl
    refine ⟨?_, ?_, ?_⟩
    · intro it hit
      rw [hres] at hit
      have hm := List.mem_filter.mp hit
      intro hl
      have hnot : ¬ it.listId = listId ∨ delItemOk it.id = false := by
        simpa using hm.2
      rcases hnot with hn | hn
      · exact hn hl
      · exact Bool.false_ne_true (hn ▸ hall it hm.1 hl)
    · intro l hl
      rw [hres] at hl
      have hm := List.mem_filter.mp hl
      simpa using hm.2
    · rw [hres]
  · intro hex
    obtain ⟨it, hit, hl, hnok⟩ := hex
    have hmall : ((items.filter (fun it => it.listId = listId)).all
        (fun it => delItemOk it.id)) = false := by
      rw [Bool.eq_false_iff]
      intro hallb
      have := List.all_eq_true.mp hallb it
        (List.mem_filter.mpr ⟨hit, by simpa using hl⟩)
      rw [hnok] at this
      exact Bool.false_ne_true this
    have hres : deleteList (some u) delItemOk delListOk lists items listId =
        ⟨lists,
         items.filter (fun it => ¬ (it.listId = listId ∧ delItemOk it.id)),
         1, (items.filter (fun it => it.listId = listId)).length, true⟩ := by
      unfold deleteList
      rw [if_neg (by rw [hmall]; exact Bool.false_ne_true)]
    rw [hres]
    exact ⟨rfl, rfl⟩

/-- Witness for C5: a one-item list is fully cascaded when deletes succeed,
and the list document survives with a raised failure when the item delete
fails. -/
theorem deleteList_cascade_witness :
    (∀ it ∈ (deleteList (some "A") (fun _ => true) true
        [listGroceries] [itemA] "l1").items, ¬ it.listId = "l1") ∧
    ((deleteList (some "A") (fun _ => false) false
        [listGroceries] [itemA] "l1").lists = [listGroceries] ∧
     (deleteList (some "A") (fun _ => false) false
        [listGroceries] [itemA] "l1").raised = true) := by
  constructor
  · exact ((deleteList_cascade "A" "l1" (fun _ => true) true
      [listGroceries] [itemA]).1 (by decide) rfl).1
  · exact (deleteList_cascade "A" "l1" (fun _ => false) false
      [listGroceries] [itemA]).2 (by decide)

theorem toggleLike_store_step (u mid : String) (store : List Message)
    (window : List MessageWithReply) (m0 : Message)
    (h : getMessageDoc store mid = some m0) :
    (toggleLike (some u) true store window mid).store =
      store.map (fun d => if d.id = mid then
        { d with likes := newLikesOf m0.likes u } else d) := by
  unfold toggleLike
  rw [h]
  rfl

/-- C6: with the target message present and no interleaved writes, one
`toggleLike` flips exactly the acting identity's membership in the message's
like set (leaving every other identity's membership unchanged), and applying
`toggleLike` twice returns the like set to its original membership. -/
theorem toggleLike_self_inverse (u mid : String) (store : List Message)
    (window : List MessageWithReply) (m0 : Message)
    (h : getMessageDoc store mid = some m0) :
    (∃ m1, getMessageDoc (toggleLike (some u) true store window mid).store mid
        = some m1 ∧
      objTruthy m1.likes u = !objTruthy m0.likes u ∧
      ∀ v, ¬ v = u → objTruthy m1.likes v = objTruthy m0.likes v) ∧
    (∃ m2, getMessageDoc (toggleLike (some u) true
        (toggleLike (some u) true store window mid).store
        (toggleLike (some u) true store window mid).window mid).store mid
        = some m2 ∧
      ∀ v, objTruthy m2.likes v = objTruthy m0.likes v) := by
  have hid0 : m0.id = mid := by
    have := List.find?_some h
    simpa using this
  have hfind1 : getMessageDoc
      (toggleLike (some u) true store window mid).store mid =
      some { m0 with likes := newLikesOf m0.likes u } := by
    rw [toggleLike_store_step u mid store window m0 h,
      getMessageDoc_map_setLikes, h]
    simp [hid0]
  have hfind2 : getMessageDoc (toggleLike (some u) true
      (toggleLike (some u) true store window mid).store
      (toggleLike (some u) true store window mid).window mid).store mid =
      some { m0 with likes := newLikesOf (newLikesOf m0.likes u) u } := by
    rw [toggleLike_store_step u mid _ _ _ hfind1,
      getMessageDoc_map_setLikes, hfind1]
    simp [hid0]
  refine ⟨⟨{ m0 with likes := newLikesOf m0.likes u }, hfind1, ?_, ?_⟩,
    ⟨{ m0 with likes := newLikesOf (newLikesOf m0.likes u) u }, hfind2, ?_⟩⟩
  · exact objTruthy_newLikesOf_self m0.likes u
  · intro v hvu
    exact objTruthy_newLikesOf_other m0.likes u v hvu
  · intro v
    exact objTruthy_newLikesOf_twice m0.likes u v

/-- Witness for C6: identity `"A"` toggling twice on a message liked only by
`"B"` restores the original like set. -/
theorem toggleLike_self_inverse_witness :
    (∃ m1, getMessageDoc
        (toggleLike (some "A") true [msgLiked] [] "m3").store "m3" = some m1 ∧
      objTruthy m1.likes "A" = !objTruthy msgLiked.likes "A" ∧
      ∀ v, ¬ v = "A" → objTruthy m1.likes v = objTruthy msgLiked.likes v) ∧
    (∃ m2, getMessageDoc (toggleLike (some "A") true
        (toggleLike (some "A") true [msgLiked] [] "m3").store
        (toggleLike (some "A") true [msgLiked] [] "m3").window "m3").store "m3"
        = some m2 ∧
      ∀ v, objTruthy m2.likes v = objTruthy msgLiked.likes v) :=
  toggleLike_self_inverse "A" "m3" [msgLiked] [] msgLiked rfl

/-- C7 counterexample: with a present user and an existing target message, a
failing like write is attempted (`writes = 1`) but no failure is raised to
the caller — the catch block swallows it — contradicting the claim that the
failure is surfaced as a per-operation typed failure. -/
theorem toggleLike_failure_not_surfaced_cex :
    (toggleLike (some "A") false [msgLiked] [] "m3").writes = 1 ∧
    (toggleLike (some "A") false [msgLiked] [] "m3").raised = false :=
  ⟨rfl, rfl⟩

/-- C7 amended: when the `toggleLike` write fails, the error is caught and
logged rather than surfaced — the call completes without raising — and the
local visible window (and the store) is left unmutated: the eager like-patch
is applied only after a successful write. -/
theorem toggleLike_failure_swallowed (userId : Option String)
    (store : List Message) (window : List MessageWithReply) (mid : String) :
    (toggleLike userId false store window mid).raised = false ∧
    (toggleLike userId false store window mid).window = window ∧
    (toggleLike userId false store window mid).store = store := by
  cases userId with
  | none => exact ⟨rfl, rfl, rfl⟩
  | some u =>
    cases hm : getMessageDoc store mid with
    | none =>
      unfold toggleLike
      rw [hm]
      exact ⟨rfl, rfl, rfl⟩
    | some m =>
      unfold toggleLike
      rw [hm]
      exact ⟨rfl, rfl, rfl⟩

/-- C8 counterexample: `createList` does not validate the name — called with
the empty name (and a present user) it persists a List document with name
`""` (and emoji `""`, not a default glyph) and returns its id, instead of
being a silent no-op. -/
theorem createList_empty_name_cex :
    (createList (some "A") true "l9" 7 [] "" Visibility.priv
      ListType.checklist none).lists =
      [⟨"l9", "", "A", Visibility.priv, ListType.checklist, "", 7⟩] ∧
    (createList (some "A") true "l9" 7 [] "" Visibility.priv
      ListType.checklist none).ret = some "l9" :=
  ⟨rfl, rfl⟩

/-- C8 amended: `createList` performs no name validation: with a present
user and a successful insert it persists a List with the given name (the
empty name included), visibility, kind, `emoji || ''` (the default emoji is
the empty string), owner = the current identity and the store timestamp, and
returns the new id. -/
theorem createList_no_validation (u freshId nm : String) (now : Nat)
    (lists : List ListDoc) (vis : Visibility) (ty : ListType)
    (emoji : Option String) :
    createList (some u) true freshId now lists nm vis ty emoji =
      ⟨lists ++ [⟨freshId, nm, u, vis, ty, (jsStr emoji).getD "", now⟩],
       some freshId, 0, 1, false⟩ := rfl

/-- C9: with no user identity every exposed mutating operation is a silent
no-op that issues no store operation and raises no error (and `createList`
returns null), while `getListItems` ignores the identity and still issues
its range query. -/
theorem no_user_noop (insertOk writeOk uploadOk delListOk : Bool)
    (delOk : String → Bool) (freshId url content nm : String) (now : Nat)
    (store : List Message) (window : List MessageWithReply)
    (fetchOlder : Message → List Message) (st : FeedState)
    (replyTo emoji : Option String) (vis : Visibility) (ty : ListType)
    (lists : List ListDoc) (upd : ListUpdates) (items : List ListItem)
    (msgStore : List Message) (lid mid iid uid : String) :
    sendMessage none insertOk freshId now store content replyTo =
      ⟨store, 0, 0, false⟩ ∧
    sendDrawing none uploadOk insertOk freshId url now store replyTo =
      ⟨store, 0, 0, false⟩ ∧
    toggleLike none writeOk store window mid = ⟨store, window, 0, 0, false⟩ ∧
    loadMore none store fetchOlder st = (st, 0) ∧
    createList none insertOk freshId now lists nm vis ty emoji =
      ⟨lists, none, 0, 0, false⟩ ∧
    updateList none writeOk lists lid upd = ⟨lists, 0, 0, false⟩ ∧
    deleteList none delOk delListOk lists items lid =
      ⟨lists, items, 0, 0, false⟩ ∧
    addMessageToList none insertOk freshId now items lid mid =
      ⟨items, 0, 0, false⟩ ∧
    removeFromList none delOk items lid mid = ⟨items, 0, 0, false⟩ ∧
    toggleItemCompleted none writeOk items iid = ⟨items, 0, 0, false⟩ ∧
    getListItems none items msgStore lid =
      getListItems (some uid) items msgStore lid ∧
    1 ≤ (getListItems none items msgStore lid).reads := by
  refine ⟨rfl, rfl, rfl, ?_, rfl, rfl, rfl, rfl, rfl, rfl, rfl, ?_⟩
  · simp [loadMore]
  · exact Nat.le_add_right 1 _

/-- C10: a point mutation aimed at a missing target is a silent no-op:
`toggleLike` with an unknown message id and `toggleItemCompleted` with an
unknown item id perform only the point read, no write, leave all state
unchanged and raise no error. -/
theorem missing_target_noop (u : String) (writeOk : Bool)
    (store : List Message) (window : List MessageWithReply) (mid : String)
    (items : List ListItem) (iid : String)
    (h1 : getMessageDoc store mid = none)
    (h2 : items.find? (fun it => it.id = iid) = none) :
    toggleLike (some u) writeOk store window mid =
      ⟨store, window, 1, 0, false⟩ ∧
    toggleItemCompleted (some u) writeOk items iid = ⟨items, 1, 0, false⟩ := by
  constructor
  · unfold toggleLike
    rw [h1]
  · unfold toggleItemCompleted
    rw [h2]

/-- Witness for C10: toggling a like on an unknown message id and a
completion flag on an unknown item id, on empty stores. -/
theorem missing_target_noop_witness :
    toggleLike (some "A") true [] [] "zz" = ⟨[], [], 1, 0, false⟩ ∧
    toggleItemCompleted (some "A") true [] "zz" = ⟨[], 1, 0, false⟩ :=
  missing_target_noop "A" true [] [] "zz" [] "zz" rfl rfl
